import Mathlib

/-!
Verification of the sega-slides generator (`generate.py`).

The file gives a shallow embedding of the pure decision logic of the
program: page-range parsing (`re.match` on `(.*)@(\d+)-(\d+)`), the
page-selection loop of `process_slides`, the manifest and header
generation, the dithering-argument dispatch of `__main__`, the command
sequence of `compile_rom`, and the file-overwrite order of `main` /
`copy_sources`.  External subprocesses (pdftoppm, ImageMagick, docker)
are modelled by their observable inputs and outputs: exit codes, the
list of page files they produce, and the argument vectors the program
hands them.
-/

/-! ## Dithering configuration (source lines 61-75 and 272-283) -/

/-- ImageMagick arguments for -dither (source list `IMAGEMAGICK_DITHER`). -/
def IMAGEMAGICK_DITHER : List String :=
  ["FloydSteinberg", "Riemersma"]

/-- ImageMagick arguments for -ordered-dither
(source list `IMAGEMAGICK_ORDERED_DITHER`). -/
def IMAGEMAGICK_ORDERED_DITHER : List String :=
  ["o2x2", "o3x3", "o4x4", "o8x8", "checks"]

/-- Acceptable command line values for --dithering
(source list `DITHERING_CHOICES`). -/
def DITHERING_CHOICES : List String :=
  IMAGEMAGICK_DITHER ++ IMAGEMAGICK_ORDERED_DITHER

/-- The three states of the argparse `--dithering` option
(`nargs=\x27?\x27, default=False`): absent from the command line
(`args.dithering = False`), present without a value
(`args.dithering = None`), or present with a value (a string). -/
inductive DitheringOpt where
  | notRequested
  | requestedDefault
  | requestedNamed (s : String)
deriving DecidableEq, Repr

/-- The dispatch in `__main__` (source lines 272-283).  `if args.dithering:`
is Python truthiness, so an empty string would fall through to `+dither`;
argparse `choices` restricts real values to `DITHERING_CHOICES`. -/
def dithering_args_of : DitheringOpt → List String
  | .requestedNamed s =>
      if s ≠ "" then
        if IMAGEMAGICK_DITHER.contains s then
          ["-dither", s]
        else
          ["-ordered-dither", s]
      else
        ["+dither"]
  | .requestedDefault => ["-dither", "FloydSteinberg"]
  | .notRequested => ["+dither"]

/-! ## Docker invocations of `compile_rom` (source lines 211-239) -/

/-- SGDK image to compile the ROM (source constant). -/
def SGDK_DOCKER_IMAGE : String := "ghcr.io/stephane-d/sgdk:latest"

/-- The subprocess command lines issued by `compile_rom`, in order
(source lines 212-239).  The pull command is issued unconditionally:
the function takes no input describing whether the image is already
present locally, because the source never checks. -/
def compile_rom_commands (isWin32 : Bool) (uid gid : Nat) (app_dir : String) :
    List (List String) :=
  [["docker", "pull", SGDK_DOCKER_IMAGE],
   ["docker", "run", "--rm", "-v", app_dir ++ ":/src"]
     ++ (if isWin32 then [] else ["-u", toString uid ++ ":" ++ toString gid])
     ++ [SGDK_DOCKER_IMAGE]]

/-! ## Outcome of `compile_rom` (source lines 239-246)

`subprocess.run(check=True, ...)` raises `CalledProcessError` on a
non-zero toolchain exit; `shutil.copy` raises `FileNotFoundError` when
`out/rom.bin` is absent.  Both happen before anything is written to the
destination path, which we model as an `Option String` (its content, or
`none` when no file exists there). -/

/-- The two build-stage failures of the spec taxonomy. -/
inductive BuildFailure where
  | buildError
  | artifactMissing
deriving DecidableEq, Repr

/-- Run of the tail of `compile_rom`: the `docker run` exit code, the
content of `out/rom.bin` when it exists, and the prior state of the
destination path.  Returns the outcome paired with the new state of the
destination path. -/
def compile_rom_run (buildExit : Nat) (artifact : Option String)
    (dest : Option String) : Except BuildFailure Unit × Option String :=
  if buildExit = 0 then
    match artifact with
    | some content => (Except.ok (), some content)
    | none => (Except.error BuildFailure.artifactMissing, dest)
  else
    (Except.error BuildFailure.buildError, dest)

/-- An `Except` result is a success. -/
def exceptIsOk : Except BuildFailure Unit → Bool
  | .ok _ => true
  | .error _ => false

/-! ## Page selector (source lines 78-88)

`main` runs `re.match(r[backslash](.*)@([backslash]d+)-([backslash]d+), pdf_spec)`.
The pattern is anchored at the start, unanchored at the end, and `(.*)`
is greedy, so the match splits at the LAST `@` that is followed by
`digits-digits`; trailing characters after the second digit run are
ignored.  On a match the groups give `pdf_path`, `int(start)`,
`int(end)`; otherwise the whole token is the path and the range is
`[1, unbounded)`.  No check that start does not exceed end exists. -/

/-- Split a character list into its maximal leading digit run and the
remainder (the behaviour of a greedy `[backslash]d+` attempt). -/
def takeDigits : List Char → List Char × List Char
  | [] => ([], [])
  | c :: cs =>
      if c.isDigit then
        let r := takeDigits cs
        (c :: r.1, r.2)
      else
        ([], c :: cs)

/-- Value of a digit string, as Python `int()` computes it. -/
def digitsToNat (l : List Char) : Nat :=
  l.foldl (fun n c => 10 * n + (c.toNat - 48)) 0

/-- Try to read `[backslash]d+-[backslash]d+` as a prefix of the input
(the part of the pattern after the `@`); ignore what follows. -/
def matchRange (s : List Char) : Option (Nat × Nat) :=
  let d1 := takeDigits s
  if d1.1 = [] then none
  else
    match d1.2 with
    | '-' :: r2 =>
        let d2 := takeDigits r2
        if d2.1 = [] then none
        else some (digitsToNat d1.1, digitsToNat d2.1)
    | _ => none

/-- Greedy search for the split point: the last `@` in the token that is
followed by `digits-digits` wins, exactly as the greedy `(.*)` makes the
regex engine do. -/
def reMatchSpec : List Char → Option (List Char × Nat × Nat)
  | [] => none
  | c :: cs =>
      match reMatchSpec cs with
      | some (p, a, b) => some (c :: p, a, b)
      | none =>
          if c = '@' then
            match matchRange cs with
            | some (a, b) => some ([], a, b)
            | none => none
          else
            none

/-- The page selector of `main` (source lines 80-88): path, start page
and optional end page.  When the pattern does not match, the whole
token is the path and the range is `[1, unbounded)`. -/
def parsePdfSpec (pdf_spec : List Char) : List Char × Nat × Option Nat :=
  match reMatchSpec pdf_spec with
  | some (p, a, b) => (p, a, some b)
  | none => (pdf_spec, 1, none)

theorem takeDigits_all_digits (s : List Char) (t : List Char)
    (hs : s.all Char.isDigit = true)
    (ht : ∀ c r, t = c :: r → c.isDigit = false) :
    takeDigits (s ++ t) = (s, t) := by
  induction s with
  | nil =>
      cases t with
      | nil => rfl
      | cons c r =>
          simp only [List.nil_append, takeDigits, ht c r rfl]
          simp
  | cons c cs ih =>
      simp only [List.all_cons, Bool.and_eq_true] at hs
      simp only [List.cons_append, takeDigits, hs.1, if_pos, List.append_eq]
      rw [ih hs.2]

theorem reMatchSpec_no_at (s : List Char) (h : ∀ c ∈ s, c ≠ '@') :
    reMatchSpec s = none := by
  induction s with
  | nil => rfl
  | cons c cs ih =>
      simp only [reMatchSpec]
      rw [ih (fun d hd => h d (List.mem_cons_of_mem c hd))]
      simp [h c (List.mem_cons_self c cs)]

theorem digit_ne_at (c : Char) (h : c.isDigit = true) : c ≠ '@' := by
  intro hc
  subst hc
  simp [Char.isDigit] at h

theorem reMatchSpec_splits (path s1 s2 : List Char)
    (h1 : s1.all Char.isDigit = true) (h1n : s1 ≠ [])
    (h2 : s2.all Char.isDigit = true) (h2n : s2 ≠ []) :
    reMatchSpec (path ++ '@' :: (s1 ++ '-' :: s2))
      = some (path, digitsToNat s1, digitsToNat s2) := by
  induction path with
  | nil =>
      simp only [List.nil_append, reMatchSpec]
      have hnoat : ∀ c ∈ s1 ++ '-' :: s2, c ≠ '@' := by
        intro c hc
        rcases List.mem_append.mp hc with hc1 | hc2
        · exact digit_ne_at c (by
            have := List.all_eq_true.mp h1 c hc1
            simpa using this)
        · rcases List.mem_cons.mp hc2 with hdash | hc3
          · subst hdash; decide
          · exact digit_ne_at c (by
              have := List.all_eq_true.mp h2 c hc3
              simpa using this)
      rw [reMatchSpec_no_at _ hnoat]
      have hrange : matchRange (s1 ++ '-' :: s2)
          = some (digitsToNat s1, digitsToNat s2) := by
        have hs2 : takeDigits s2 = (s2, []) := by
          have := takeDigits_all_digits s2 [] h2 (by intro c r hcr; cases hcr)
          simpa using this
        have hs1 : takeDigits (s1 ++ '-' :: s2) = (s1, '-' :: s2) :=
          takeDigits_all_digits s1 ('-' :: s2) h1
            (by intro c r hcr; cases hcr; decide)
        simp [matchRange, hs1, hs2, h1n, h2n]
      simp [hrange]
  | cons c cs ih =>
      simp only [List.cons_append, reMatchSpec, List.append_eq]
      rw [ih]

/-! ## process_slides (source lines 122-203)

`pdftoppm` is modelled by its observable output: the sorted list of
page image paths found by the glob, plus its exit status (used below
for C7).  The loop walks those paths with a 1-based counter `page_num`,
skips pages outside `[start_page, end_page]`, and for each kept page
records the ImageMagick command line, one resource-declaration line and
one pointer-table line, both named by `page_num`. -/

/-- `os.path.basename` for POSIX paths: the part after the last slash. -/
def basename (s : String) : String :=
  String.mk ((s.toList.reverse.takeWhile (fun c => c ≠ '/')).reverse)

/-- One line of `slide_data.res` (source lines 183-185):
`IMAGE slide_<page_num> <page_filename> BEST`. -/
def mkResourceLine (page_num : Nat) (page_filename : String) : String :=
  "IMAGE slide_" ++ toString page_num ++ " " ++ page_filename ++ " BEST"

/-- One line of the pointer table in `slides.h` (source lines 186-188):
two spaces, `&slide_<page_num>`, trailing comma. -/
def mkPointerLine (page_num : Nat) : String :=
  "  &slide_" ++ toString page_num ++ ","

/-- Observable output of `process_slides`: the accumulated resource
declarations, the accumulated pointer-table lines, and the ImageMagick
command line issued for each processed page, in order. -/
structure SlidesOutput where
  resource_list : List String
  image_pointers : List String
  convert_calls : List (List String)
deriving DecidableEq, Repr

/-- The page loop of `process_slides` (source lines 148-193), with the
running counter made explicit.  `convert_bin` abstracts the
`IMAGEMAGICK_CONVERT_BINARY` global (`magick`, or `convert` as the
fallback probed at startup). -/
def processLoop (convert_bin : String) (dithering_args : List String)
    (app_dir : String) (start_page : Nat) (end_page : Option Nat) :
    List String → Nat → SlidesOutput
  | [], _ => ⟨[], [], []⟩
  | page_path :: rest, page_num =>
      let tail := processLoop convert_bin dithering_args app_dir
        start_page end_page rest (page_num + 1)
      if page_num < start_page then
        tail
      else if (match end_page with
               | some e => decide (page_num > e)
               | none => false) then
        tail
      else
        let page_filename := basename page_path
        let output_path := app_dir ++ "/res/" ++ page_filename
        let args := [convert_bin, page_path,
          "-scale", "320x224",
          "-background", "black", "-gravity", "center", "-extent", "320x224",
          "-depth", "3"]
        let args := args ++ dithering_args
        let args := args ++ ["-colors", "15", "PNG8:" ++ output_path]
        ⟨mkResourceLine page_num page_filename :: tail.resource_list,
         mkPointerLine page_num :: tail.image_pointers,
         args :: tail.convert_calls⟩

/-- `process_slides`, from the sorted page paths the rasterizer left in
the pages directory. -/
def process_slides (convert_bin : String) (page_paths : List String)
    (start_page : Nat) (end_page : Option Nat) (dithering_args : List String)
    (app_dir : String) : SlidesOutput :=
  processLoop convert_bin dithering_args app_dir start_page end_page page_paths 1

/-- The `num_slides` value written into `slides.h`
(source line 200: `num_slides=len(image_pointers)`). -/
def numSlidesWritten (image_pointers : List String) : Nat :=
  image_pointers.length

/-- The generated `slides.h` content (source template `SLIDES_H_TEMPLATE`
filled at lines 197-200). -/
def slidesHContent (image_pointers : List String) : String :=
  "\n#ifndef _RES_SLIDES_H_\n#define _RES_SLIDES_H_\n\n"
    ++ "#include \"slide_data.h\"\n\n"
    ++ "const Image* slides[] = \x7b\n"
    ++ String.intercalate "\n" image_pointers
    ++ "\n\x7d;\n\nconst int num_slides = "
    ++ toString (numSlidesWritten image_pointers)
    ++ ";\n\n#endif // _RES_SLIDES_H_\n"

/-- The generated `slide_data.res` content (source lines 202-203). -/
def slideDataResContent (resource_list : List String) : String :=
  String.intercalate "\n" resource_list ++ "\n"

/-- Wrapper recording that `subprocess.run(check=True, [pdftoppm ...])`
(source lines 124-135) raises `CalledProcessError` on a non-zero exit
before any page is processed; on a zero exit the loop runs on whatever
page files were produced — the code never checks that there is at least
one. -/
def process_slides_run (convert_bin : String) (pdftoppmExit : Nat)
    (page_paths : List String) (start_page : Nat) (end_page : Option Nat)
    (dithering_args : List String) (app_dir : String) :
    Except String SlidesOutput :=
  if pdftoppmExit = 0 then
    Except.ok (process_slides convert_bin page_paths start_page end_page
      dithering_args app_dir)
  else
    Except.error "CalledProcessError"

/-- Success of the rasterization-plus-processing stage. -/
def slidesRunOk : Except String SlidesOutput → Bool
  | .ok _ => true
  | .error _ => false

/-! ### Specification-side view of the selection

The pages the loop keeps, paired with their 1-based original page
numbers. -/

/-- Whether original page `n` lies in the selected range: the positive
form of the two skip conditions of the loop. -/
def pageSelected (start_page : Nat) (end_page : Option Nat) (n : Nat) : Bool :=
  decide (start_page ≤ n) &&
    (match end_page with
     | some e => decide (n ≤ e)
     | none => true)

/-- Pair each list element with its position, counting from `n`. -/
def numberFrom : Nat → List String → List (Nat × String)
  | _, [] => []
  | n, p :: ps => (n, p) :: numberFrom (n + 1) ps

/-- The selected pages, with their original 1-based page numbers. -/
def selectedPages (start_page : Nat) (end_page : Option Nat)
    (page_paths : List String) : List (Nat × String) :=
  (numberFrom 1 page_paths).filter (fun np => pageSelected start_page end_page np.1)

theorem processLoop_eq (cb : String) (d : List String) (a : String)
    (s : Nat) (e : Option Nat) (paths : List String) : ∀ n : Nat,
    processLoop cb d a s e paths n =
      SlidesOutput.mk
        (((numberFrom n paths).filter (fun np => pageSelected s e np.1)).map
          (fun np => mkResourceLine np.1 (basename np.2)))
        (((numberFrom n paths).filter (fun np => pageSelected s e np.1)).map
          (fun np => mkPointerLine np.1))
        (((numberFrom n paths).filter (fun np => pageSelected s e np.1)).map
          (fun np =>
            [cb, np.2, "-scale", "320x224", "-background", "black", "-gravity",
              "center", "-extent", "320x224", "-depth", "3"]
            ++ d
            ++ ["-colors", "15", "PNG8:" ++ (a ++ "/res/" ++ basename np.2)])) := by
  induction paths with
  | nil => intro n; rfl
  | cons p ps ih =>
      intro n
      have heq := ih (n + 1)
      by_cases h1 : n < s
      · have hsel : pageSelected s e n = false := by
          unfold pageSelected
          have hA : decide (s ≤ n) = false := by simp; omega
          simp [hA]
        simp [processLoop, numberFrom, List.filter_cons, hsel, h1, heq]
      · cases e with
        | none =>
            have hsel : pageSelected s none n = true := by
              unfold pageSelected
              have hA : decide (s ≤ n) = true := by simp; omega
              simp [hA]
            simp [processLoop, numberFrom, List.filter_cons, hsel, h1, heq]
        | some v =>
            by_cases h2 : n > v
            · have hsel : pageSelected s (some v) n = false := by
                unfold pageSelected
                have hB : decide (n ≤ v) = false := by simp; omega
                simp [hB]
              simp [processLoop, numberFrom, List.filter_cons, hsel, h1, h2, heq]
            · have hsel : pageSelected s (some v) n = true := by
                unfold pageSelected
                have hA : decide (s ≤ n) = true := by simp; omega
                have hB : decide (n ≤ v) = true := by simp; omega
                simp [hA, hB]
              simp [processLoop, numberFrom, List.filter_cons, hsel, h1, h2, heq]

/-- C5: for every document, selection, dithering setting and build
directory, the ImageMagick invocation for each selected page carries the
operations in this order: scale to fit 320x224, pad centered on a black
background to exactly 320x224, reduce depth to 3 bits per channel, the
dithering arguments, quantize to 15 colors, and write a PNG8
indexed-color image at a path keyed by the original raster file name
(the basename of the page path, never the dense index). -/
theorem convert_call_structure (cb : String) (paths : List String) (s : Nat)
    (e : Option Nat) (d : List String) (a : String) :
    (process_slides cb paths s e d a).convert_calls
      = (selectedPages s e paths).map (fun np =>
          [cb, np.2, "-scale", "320x224", "-background", "black", "-gravity",
            "center", "-extent", "320x224", "-depth", "3"]
          ++ d
          ++ ["-colors", "15", "PNG8:" ++ (a ++ "/res/" ++ basename np.2)]) := by
  rw [process_slides, processLoop_eq cb d a s e paths 1]
  rfl

/-- C1 (amended): the manifest entry produced for each selected page is
`IMAGE slide_p <filename> BEST` with pointer line `  &slide_p,`, where
`p` is the ORIGINAL 1-based page number, not a dense index
re-numbered over the selected subset; entries appear in ascending
original-page order (`selectedPages` preserves it). -/
theorem manifest_entries_use_original_page_numbers (cb : String)
    (paths : List String) (s : Nat) (e : Option Nat) (d : List String)
    (a : String) :
    (process_slides cb paths s e d a).resource_list
      = (selectedPages s e paths).map
          (fun np => mkResourceLine np.1 (basename np.2))
    ∧ (process_slides cb paths s e d a).image_pointers
      = (selectedPages s e paths).map (fun np => mkPointerLine np.1) := by
  rw [process_slides, processLoop_eq cb d a s e paths 1]
  exact ⟨rfl, rfl⟩

/-- C1 counterexample: a 5-page document with selection 3-5 yields
manifest entries named `slide_3`, `slide_4`, `slide_5` — not the
dense-indexed `slide_1..slide_3` the claim predicts; in particular the
first entry differs from the predicted `IMAGE slide_1 page-3.png BEST`. -/
theorem dense_index_counterexample :
    (process_slides "magick"
        ["pages/page-1.png", "pages/page-2.png", "pages/page-3.png",
          "pages/page-4.png", "pages/page-5.png"]
        3 (some 5) [] "app").resource_list
      = ["IMAGE slide_3 page-3.png BEST", "IMAGE slide_4 page-4.png BEST",
          "IMAGE slide_5 page-5.png BEST"]
    ∧ (process_slides "magick"
        ["pages/page-1.png", "pages/page-2.png", "pages/page-3.png",
          "pages/page-4.png", "pages/page-5.png"]
        3 (some 5) [] "app").resource_list.head?
      ≠ some "IMAGE slide_1 page-3.png BEST" := by
  constructor
  · rfl
  · decide

theorem selectedCount_some (s v : Nat) (paths : List String) : ∀ n, 1 ≤ n →
    ((numberFrom n paths).filter
        (fun np => pageSelected s (some v) np.1)).length
      = min v (n + paths.length - 1) + 1 - max s n := by
  induction paths with
  | nil =>
      intro n hn
      simp only [numberFrom, List.filter_nil, List.length_nil]
      omega
  | cons p ps ih =>
      intro n hn
      have ihn := ih (n + 1) (by omega)
      by_cases hsel : pageSelected s (some v) n = true
      · have hprop : s ≤ n ∧ n ≤ v := by
          unfold pageSelected at hsel
          simpa using hsel
        simp only [numberFrom, List.filter_cons, hsel, if_true, List.length_cons,
          ihn, List.length_cons]
        omega
      · have hsel' : pageSelected s (some v) n = false := by
          revert hsel; cases pageSelected s (some v) n <;> simp
        have hprop : ¬(s ≤ n ∧ n ≤ v) := by
          unfold pageSelected at hsel'
          simpa using hsel'
        simp only [numberFrom, List.filter_cons, hsel', List.length_cons, ihn]
        simp only [Bool.false_eq_true, if_false, ihn, List.length_cons]
        omega

theorem selectedCount_none (s : Nat) (paths : List String) : ∀ n,
    ((numberFrom n paths).filter (fun np => pageSelected s none np.1)).length
      = n + paths.length - max s n := by
  induction paths with
  | nil =>
      intro n
      simp only [numberFrom, List.filter_nil, List.length_nil]
      omega
  | cons p ps ih =>
      intro n
      have ihn := ih (n + 1)
      by_cases hsel : pageSelected s none n = true
      · have hprop : s ≤ n := by
          unfold pageSelected at hsel
          simpa using hsel
        simp only [numberFrom, List.filter_cons, hsel, if_true, List.length_cons,
          ihn, List.length_cons]
        omega
      · have hsel' : pageSelected s none n = false := by
          revert hsel; cases pageSelected s none n <;> simp
        have hprop : ¬ s ≤ n := by
          unfold pageSelected at hsel'
          simpa using hsel'
        simp only [numberFrom, List.filter_cons, hsel', List.length_cons, ihn]
        simp only [Bool.false_eq_true, if_false, ihn, List.length_cons]
        omega

theorem icc_filter_card (s c N : Nat) :
    ((Finset.Icc 1 N).filter (fun k => s ≤ k ∧ k ≤ c)).card
      = min N c + 1 - max 1 s := by
  have h1 : (Finset.Icc 1 N).filter (fun k => s ≤ k ∧ k ≤ c)
      = (Finset.Icc 1 N).filter (fun k => k ∈ Finset.Icc s c) := by
    apply Finset.filter_congr
    intro k _
    simp [Finset.mem_Icc]
  have h2 : Finset.Icc 1 N ∩ Finset.Icc s c = Finset.Icc (max 1 s) (min N c) := by
    rw [← Finset.coe_inj, Finset.coe_inter, Finset.coe_Icc, Finset.coe_Icc,
      Finset.coe_Icc, Set.Icc_inter_Icc]
  rw [h1, Finset.filter_mem_eq_inter, h2, Nat.card_Icc]

theorem numberFrom_fst_ge (ps : List String) : ∀ n x, x ∈ numberFrom n ps →
    n ≤ x.1 := by
  induction ps with
  | nil => intro n x hx; cases hx
  | cons p ps ih =>
      intro n x hx
      rcases List.mem_cons.mp hx with h | h
      · subst h; exact Nat.le_refl n
      · have := ih (n + 1) x h
        omega

theorem numberFrom_pairwise (ps : List String) : ∀ n,
    (numberFrom n ps).Pairwise (fun x y => x.1 < y.1) := by
  induction ps with
  | nil => intro n; exact List.Pairwise.nil
  | cons p ps ih =>
      intro n
      refine List.Pairwise.cons ?_ (ih (n + 1))
      intro y hy
      have := numberFrom_fst_ge ps (n + 1) y hy
      omega

/-- C2: for every document, selection, dithering setting and build
directory, the declaration list and the pointer table have the same
length; that length is the `num_slides` value written into the generated
header; it equals the number of pages in the intersection of the
selected range with `[1, N]` (with an absent end page meaning
unbounded); and both sequences are images of one common list of
selected pages — entry i of both refers to the same source image — whose
page numbers are strictly ascending (ascending original-page order). -/
theorem manifest_invariants (cb : String) (paths : List String) (s : Nat)
    (e : Option Nat) (d : List String) (a : String) :
    (process_slides cb paths s e d a).resource_list.length
      = (process_slides cb paths s e d a).image_pointers.length
    ∧ numSlidesWritten ((process_slides cb paths s e d a).image_pointers)
      = (process_slides cb paths s e d a).resource_list.length
    ∧ (process_slides cb paths s e d a).resource_list.length
      = ((Finset.Icc 1 paths.length).filter
          (fun k => s ≤ k ∧ k ≤ (match e with
                                 | some v => v
                                 | none => paths.length))).card
    ∧ (∃ sel : List (Nat × String),
        (process_slides cb paths s e d a).resource_list
          = sel.map (fun np => mkResourceLine np.1 (basename np.2))
        ∧ (process_slides cb paths s e d a).image_pointers
          = sel.map (fun np => mkPointerLine np.1)
        ∧ (sel.map Prod.fst).Pairwise (· < ·)) := by
  rw [process_slides, processLoop_eq cb d a s e paths 1]
  refine ⟨by simp, by simp [numSlidesWritten], ?_, ?_⟩
  · cases e with
    | some v =>
        simp only [List.length_map]
        rw [selectedCount_some s v paths 1 (by omega), icc_filter_card]
        omega
    | none =>
        simp only [List.length_map]
        rw [selectedCount_none s paths 1, icc_filter_card]
        omega
  · refine ⟨(numberFrom 1 paths).filter (fun np => pageSelected s e np.1),
      rfl, rfl, ?_⟩
    rw [List.pairwise_map]
    exact (numberFrom_pairwise paths 1).filter _

/-- C3 (amended): for every token `path@start-end` whose range segments
are nonempty digit runs, the page selector recovers exactly the path
and the two numbers, regardless of whether start exceeds end.  No range
validation exists in the code: the parse never fails, and a reversed
range merely makes the later page-selection loop select nothing.  The
newline hypothesis reflects that `.` in the Python pattern does not
match a newline, so the embedding is faithful only on newline-free
paths. -/
theorem parsePdfSpec_recovers (path s1 s2 : List Char)
    (_hnl : '\n' ∉ path)
    (h1 : s1.all Char.isDigit = true) (h1n : s1 ≠ [])
    (h2 : s2.all Char.isDigit = true) (h2n : s2 ≠ []) :
    parsePdfSpec (path ++ '@' :: (s1 ++ '-' :: s2))
      = (path, digitsToNat s1, some (digitsToNat s2)) := by
  unfold parsePdfSpec
  rw [reMatchSpec_splits path s1 s2 h1 h1n h2 h2n]

/-- Witness for C3 (amended) on the spec scenario token `deck.pdf@3-5`. -/
theorem parsePdfSpec_recovers_witness :
    parsePdfSpec ("deck.pdf".toList ++ '@' :: ("3".toList ++ '-' :: "5".toList))
      = ("deck.pdf".toList, 3, some 5) :=
  parsePdfSpec_recovers "deck.pdf".toList "3".toList "5".toList
    (by decide) (by decide) (by decide) (by decide) (by decide)

/-- C3 counterexample: on the token `a@5-3`, whose start 5 exceeds its
end 3, the page selector does not fail with any error: it returns the
parsed triple just as for a well-ordered range, refuting the claim that
`start > end` fails with `InvalidRangeError` (no such error exists in
the code). -/
theorem parsePdfSpec_reversed_range_counterexample :
    parsePdfSpec "a@5-3".toList = ("a".toList, 5, some 3) ∧ 5 > 3 := by
  decide

/-- C7 (amended): the rasterization stage fails exactly when `pdftoppm`
exits non-zero (`subprocess.run(check=True)` propagating
`CalledProcessError`).  The number of page images produced plays no
part in success: no zero-page check exists, so the stage succeeds on an
empty page list just as on a populated one. -/
theorem rasterization_fails_iff_nonzero_exit (cb : String) (pdftoppmExit : Nat)
    (paths : List String) (s : Nat) (e : Option Nat) (d : List String)
    (a : String) :
    slidesRunOk (process_slides_run cb pdftoppmExit paths s e d a)
      = decide (pdftoppmExit = 0) := by
  unfold process_slides_run
  by_cases h : pdftoppmExit = 0
  · simp [h, slidesRunOk]
  · simp [h, slidesRunOk]

/-- C7 counterexample: a rasterizer run that exits zero but produces
zero page images does not fail: the stage returns success with an empty
manifest (no declarations, no pointers, no conversions), and the
pipeline goes on to write an empty header and build the ROM — refuting
the claim that zero pages for a non-empty document raises
`RasterizationError` and stops the run. -/
theorem zero_pages_no_error_counterexample :
    process_slides_run "magick" 0 [] 1 none [] "app"
      = Except.ok (SlidesOutput.mk [] [] [])
    ∧ slidesRunOk (process_slides_run "magick" 0 [] 1 none [] "app") = true := by
  exact ⟨rfl, rfl⟩

/-! ## Template materialization order (source lines 109-115, 197-208)

`main` runs `process_slides` first — which writes the two generated
artifacts `src/slides.h` and `res/slide_data.res` into the build tree —
and only then `copy_sources`, whose `shutil.copytree(template_dir,
app_dir, dirs_exist_ok=True)` copies every skeleton file over the build
tree, overwriting files at the same relative path.  The build tree is
modelled as a write log: a later write shadows an earlier one at the
same path. -/

/-- A directory tree as a log of writes; the most recent write to a
path is its content. -/
abbrev FileTree := List (String × String)

/-- Write one file (later writes shadow earlier ones on lookup). -/
def treeWrite (t : FileTree) (path content : String) : FileTree :=
  (path, content) :: t

/-- Content at a path: the most recent write, if any. -/
def treeLookup : FileTree → String → Option String
  | [], _ => none
  | (p, c) :: rest, q => if p = q then some c else treeLookup rest q

/-- `shutil.copytree(..., dirs_exist_ok=True)`: write every skeleton
file into the destination tree, overwriting same-path files. -/
def copytreeInto (dst : FileTree) (skeleton : FileTree) : FileTree :=
  skeleton.foldl (fun t pc => treeWrite t pc.1 pc.2) dst

/-- The build tree `main` hands to the compiler: the generated
`src/slides.h` and `res/slide_data.res` are written first (by
`process_slides`), then the skeleton is copied over them (by
`copy_sources`). -/
def buildAppTree (skeleton : FileTree) (image_pointers resource_list : List String) :
    FileTree :=
  copytreeInto
    (treeWrite (treeWrite [] "src/slides.h" (slidesHContent image_pointers))
      "res/slide_data.res" (slideDataResContent resource_list))
    skeleton

theorem copytreeInto_eq (skeleton : FileTree) : ∀ dst : FileTree,
    copytreeInto dst skeleton = skeleton.reverse ++ dst := by
  induction skeleton with
  | nil => intro dst; rfl
  | cons pc rest ih =>
      intro dst
      simp only [copytreeInto, List.foldl_cons, List.reverse_cons]
      have := ih (treeWrite dst pc.1 pc.2)
      simp only [copytreeInto] at this
      rw [this, treeWrite, List.append_assoc]
      rfl

theorem treeLookup_append (xs ys : FileTree) (q : String) :
    treeLookup (xs ++ ys) q
      = (treeLookup xs q).orElse (fun _ => treeLookup ys q) := by
  induction xs with
  | nil => rfl
  | cons pc rest ih =>
      rcases pc with ⟨p, c⟩
      by_cases h : p = q
      · simp [treeLookup, h, Option.orElse]
      · simp [treeLookup, h, ih]

/-- C9 (amended): `main` writes the two generated artifacts first and
copies the skeleton afterwards, each skeleton file overwriting any
same-path file; so for every path, the build tree holds the
last-copied skeleton content when the skeleton provides that path, and the
generated artifacts survive only at paths the skeleton does not
provide.  On a path collision it is the skeleton file, not the
generated artifact, that remains in the tree handed to the compiler. -/
theorem skeleton_overwrites_generated (skeleton : FileTree)
    (image_pointers resource_list : List String) (q : String) :
    treeLookup (buildAppTree skeleton image_pointers resource_list) q
      = (treeLookup (copytreeInto [] skeleton) q).orElse
          (fun _ => treeLookup
            (treeWrite (treeWrite [] "src/slides.h" (slidesHContent image_pointers))
              "res/slide_data.res" (slideDataResContent resource_list)) q) := by
  unfold buildAppTree
  rw [copytreeInto_eq, treeLookup_append, copytreeInto_eq]
  rw [List.append_nil]

/-- C9 counterexample: with a skeleton that itself contains a file named
`src/slides.h`, the build tree handed to the compiler holds the
skeleton copy, not the generated header — refuting the claim that on a
path collision the generated artifact is what remains. -/
theorem generated_header_overwritten_counterexample :
    treeLookup (buildAppTree [("src/slides.h", "TEMPLATE")] [] []) "src/slides.h"
      = some "TEMPLATE"
    ∧ some "TEMPLATE" ≠ some (slidesHContent []) := by
  refine ⟨rfl, ?_⟩
  decide

/-! ## Theorems: dithering (claims about the CLI dispatch) -/

/-- C4: the dithering selector accepts exactly the seven values of
`DITHERING_CHOICES` (two error-diffusion algorithms plus five ordered
tile patterns); unset means `+dither`; an error-diffusion name maps to
`-dither <name>`; an ordered-pattern name maps to
`-ordered-dither <name>` and never to `-dither`. -/
theorem dithering_dispatch_correct :
    DITHERING_CHOICES
      = ["FloydSteinberg", "Riemersma", "o2x2", "o3x3", "o4x4", "o8x8", "checks"]
    ∧ IMAGEMAGICK_DITHER.length = 2
    ∧ IMAGEMAGICK_ORDERED_DITHER.length = 5
    ∧ DITHERING_CHOICES.length = 7
    ∧ dithering_args_of DitheringOpt.notRequested = ["+dither"]
    ∧ IMAGEMAGICK_DITHER.all
        (fun s => dithering_args_of (DitheringOpt.requestedNamed s)
          == ["-dither", s]) = true
    ∧ IMAGEMAGICK_ORDERED_DITHER.all
        (fun s => dithering_args_of (DitheringOpt.requestedNamed s)
          == ["-ordered-dither", s]) = true
    ∧ IMAGEMAGICK_ORDERED_DITHER.all
        (fun s => !(dithering_args_of (DitheringOpt.requestedNamed s)).contains
          "-dither") = true := by
  decide

/-- C10: `--dithering` passed with no value (argparse stores `None`)
invokes the transform with `-dither FloydSteinberg`, not with dithering
disabled, a third state distinct from the unset default. -/
theorem dithering_bare_flag_means_floyd_steinberg :
    dithering_args_of DitheringOpt.requestedDefault = ["-dither", "FloydSteinberg"]
    ∧ dithering_args_of DitheringOpt.notRequested = ["+dither"]
    ∧ dithering_args_of DitheringOpt.requestedDefault
        ≠ dithering_args_of DitheringOpt.notRequested
    ∧ DitheringOpt.requestedDefault ≠ DitheringOpt.notRequested := by
  decide

/-! ## Theorems: docker pull (C6) and build failure (C8) -/

/-- C6: the first command `compile_rom` issues is always
`docker pull ghcr.io/stephane-d/sgdk:latest`, for every platform, user
and build directory.  The pull is unconditional: nothing in the code
consults whether the image is already present locally, so the behaviour
is pull-always, contradicting the source comment "Pull the image if
missing" (an offline rerun with the image cached still contacts the
registry and fails). -/
theorem compile_rom_always_pulls (isWin32 : Bool) (uid gid : Nat) (app_dir : String) :
    (compile_rom_commands isWin32 uid gid app_dir).head?
      = some ["docker", "pull", SGDK_DOCKER_IMAGE] := by
  rfl

/-- C8: whenever the build step fails, the failure is `buildError`
(non-zero toolchain exit) or `artifactMissing` (expected artifact absent
after a reported success), and the destination path is left exactly as
it was; in particular a destination where no file existed still has no
file. -/
theorem compile_rom_failure_leaves_no_output (buildExit : Nat)
    (artifact : Option String) (dest : Option String)
    (hfail : exceptIsOk (compile_rom_run buildExit artifact dest).1 = false) :
    (compile_rom_run buildExit artifact dest).2 = dest
    ∧ ((compile_rom_run buildExit artifact dest).1
          = Except.error BuildFailure.buildError
       ∨ (compile_rom_run buildExit artifact dest).1
          = Except.error BuildFailure.artifactMissing) := by
  unfold compile_rom_run at *
  by_cases h0 : buildExit = 0
  · subst h0
    cases artifact with
    | some content => simp [exceptIsOk] at hfail
    | none => simp
  · simp [h0]

/-- Witness for C8 at a concrete failing input: toolchain exit 1,
no artifact, destination initially absent. -/
theorem compile_rom_failure_leaves_no_output_witness :
    (compile_rom_run 1 none none).2 = none
    ∧ ((compile_rom_run 1 none none).1 = Except.error BuildFailure.buildError
       ∨ (compile_rom_run 1 none none).1
          = Except.error BuildFailure.artifactMissing) :=
  compile_rom_failure_leaves_no_output 1 none none (by decide)
